import Mathlib

/-!
Shallow embedding of the frame renderers of the three arcade drivers
(Sky Fox `src/mame/jaleco/skyfox_v.cpp`, Chack'n Pop `src/mame/taito/chaknpop.cpp`,
Pooyan `src/mame/konami/pooyan.cpp`).

Modelling conventions:
* machine bytes are `Nat` values; every load of a `uint8_t` cell is written
  `f i % 256`, the type enforcement the C type system provides;
* C bitwise operators `&`, `|`, `<<`, `>>` are rendered with the Nat operators
  `&&&`, `|||`, `<<<`, `>>>`; C `%` on non-negative ints is Nat `%`;
* the framebuffer (`bitmap_ind16`) is a total function `Int → Int → Nat`
  indexed row-then-column, mutation is functional update;
* a C loop `for (d = start; d != end; d += inc)` with `inc = ±1` and `end`
  one past the last value visits exactly the values of `List.range n`
  (or its reverse); the translation materialises that index list.
-/

set_option maxRecDepth 100000
set_option linter.unusedVariables false

namespace Store1

/-- Indexed framebuffer: row `y`, column `x`, 16-bit palette index. -/
abbrev Fb := Int → Int → Nat

/-- Functional update of one framebuffer pixel (a `bitmap.pix(y, x) = v` store). -/
def fbSet (fb : Fb) (y x : Int) (v : Nat) : Fb :=
  fun y0 x0 => if y0 = y ∧ x0 = x then v else fb y0 x0

/-- MAME `rectangle`: inclusive min/max bounds on both axes. -/
structure Clip where
  min_x : Int
  max_x : Int
  min_y : Int
  max_y : Int

/-- MAME `rectangle::contains(x, y)` as a Bool. -/
def inClipB (c : Clip) (x y : Int) : Bool :=
  decide (c.min_x ≤ x) && decide (x ≤ c.max_x) &&
  decide (c.min_y ≤ y) && decide (y ≤ c.max_y)

/-- Skeleton of a pixel-write loop: for each index `i` of `l` in order, if
`c i` holds write palette value `p i` at row `fy i`, column `fx i`. -/
def condWriteFold (c : Nat → Bool) (fy fx : Nat → Int) (p : Nat → Nat)
    (l : List Nat) (fb : Fb) : Fb :=
  l.foldl (fun fb i => if c i then fbSet fb (fy i) (fx i) (p i) else fb) fb

/-- Sky Fox machine snapshot: the inputs the `skyfox_state` rendering reads.
`gfx c ty tx` is the decoded 8x8x8 `gfx_element` pixel of tile `c` at row
`ty`, column `tx` (the gfx decode itself lives in the driver file, outside
the rasteriser; the spec presents it as the shared PatternDecoder). -/
structure SkyfoxSnap where
  bgram : Nat → Nat
  bg_rom : Nat → Nat
  spriteram : Nat → Nat
  sprLen : Nat
  gfx : Nat → Nat → Nat → Nat
  bg_ctrl : Nat
  width : Int
  height : Int

/-! ### Star field (`skyfox_state::draw_background`) -/

/-- Star position slot, source line
`int pos = m_bgram[ramoffset + 1] * 2 + ((m_bgram[ramoffset] & 0x80) ? 1 : 0);`
with `ramoffset = 0xe0 + (i & 0xf) * 2`. -/
def bgPos (s : SkyfoxSnap) (i : Nat) : Nat :=
  (s.bgram (0xe0 + (i &&& 0xf) * 2 + 1) % 256) * 2 +
    (if (s.bgram (0xe0 + (i &&& 0xf) * 2) % 256) &&& 0x80 ≠ 0 then 1 else 0)

/-- Star ROM offset, source line `int offs = (i * 2) % 0x2000 + pattern * 0x2000;`
with `pattern = (m_bg_ctrl & 0x6) >> 1`. -/
def bgOffs (s : SkyfoxSnap) (i : Nat) : Nat :=
  (i * 2) % 0x2000 + (((s.bg_ctrl % 256) &&& 0x6) >>> 1) * 0x2000

/-- Star colour, source line `int pen = rom[offs];`. -/
def bgPen (s : SkyfoxSnap) (i : Nat) : Nat :=
  s.bg_rom (bgOffs s i) % 256

/-- Star column, source line `int x = rom[offs + 1] * 2 + pos + 0x5b;`. -/
def bgX (s : SkyfoxSnap) (i : Nat) : Nat :=
  (s.bg_rom (bgOffs s i + 1) % 256) * 2 + bgPos s i + 0x5b

/-- Star row, source line `int y = (i >> 4) + 1;`. -/
def bgY (s : SkyfoxSnap) (i : Nat) : Nat :=
  (i >>> 4) + 1

/-- Star-write guard, source line
`if (((m_bg_ctrl >> 4) & 3) != (pen & 3) || !blinking)` with
`blinking = (m_bg_ctrl & 0x8)`. -/
def bgCond (s : SkyfoxSnap) (i : Nat) : Bool :=
  decide ((((s.bg_ctrl % 256) >>> 4) &&& 3) ≠ (bgPen s i &&& 3)) ||
    !(decide ((s.bg_ctrl % 256) &&& 0x8 ≠ 0))

/-- Translation of `skyfox_state::draw_background`: 0x1000 candidate stars; each
passing the guard stores `pen` at `bitmap.pix(y % 256, x % 512)`. Note that the
source function never consults its `cliprect` argument. -/
def draw_background (s : SkyfoxSnap) (fb : Fb) : Fb :=
  condWriteFold (bgCond s)
    (fun i => ((bgY s i % 256 : Nat) : Int))
    (fun i => ((bgX s i % 512 : Nat) : Int))
    (bgPen s) (List.range 0x1000) fb

/-! ### Tile blitter (framework `gfx_element::transpen`)

The blitter itself is framework code that is not part of this repository's
three files; it is modelled from the spec, section 4.2 TileBlitter: for each
pixel of the 8x8 tile, decode at the flip-adjusted intra-tile coordinates,
skip the pixel when it equals the transparent index or falls outside the clip
rectangle, otherwise store it (palette base is 0 for all Sky Fox sprites). -/

/-- Decoded tile pixel for blit-order pixel index `k` (row `k / 8`,
column `k % 8`), honouring the X/Y flip flags. -/
def tpPen (g : Nat → Nat → Nat → Nat) (code : Nat) (fx fy : Bool) (k : Nat) : Nat :=
  g code (if fy then 7 - k / 8 else k / 8) (if fx then 7 - k % 8 else k % 8) % 256

/-- Write condition of one blitted pixel: opaque and inside the clip. -/
def tpCond (g : Nat → Nat → Nat → Nat) (cl : Clip) (code : Nat) (fx fy : Bool)
    (sx sy : Int) (tr : Nat) (k : Nat) : Bool :=
  decide (tpPen g code fx fy k ≠ tr) &&
    inClipB cl (sx + ((k % 8 : Nat) : Int)) (sy + ((k / 8 : Nat) : Int))

/-- Modelled from the spec, section 4.2: `gfx->transpen(bitmap, cliprect, code,
0, flipx, flipy, sx, sy, trans_pen)` blits one 8x8 tile at `(sx, sy)`. -/
def transpen (g : Nat → Nat → Nat → Nat) (cl : Clip) (code : Nat) (fx fy : Bool)
    (sx sy : Int) (tr : Nat) (fb : Fb) : Fb :=
  condWriteFold (tpCond g cl code fx fy sx sy tr)
    (fun k => sy + ((k / 8 : Nat) : Int))
    (fun k => sx + ((k % 8 : Nat) : Int))
    (tpPen g code fx fy) (List.range 64) fb

/-! ### Sprites (`skyfox_state::draw_sprites`) -/

/-- Innermost loop body of `skyfox_state::draw_sprites`: blit tile `code` at
`(dx*8 + x, dy*8 + y)` and again at `(dx*8 + x, dy*8 + y - 256)` (vertical
wraparound), then `code++`. The state pair carries (framebuffer, code). -/
def tileStep (g : Nat → Nat → Nat → Nat) (cl : Clip) (fx fy : Bool) (x y : Int)
    (dy : Nat) (st : Fb × Nat) (dx : Nat) : Fb × Nat :=
  (transpen g cl st.2 fx fy ((dx : Nat) * 8 + x) ((dy : Nat) * 8 + y - 256) 0xff
    (transpen g cl st.2 fx fy ((dx : Nat) * 8 + x) ((dy : Nat) * 8 + y) 0xff st.1),
   st.2 + 1)

/-- One `dy` iteration of `skyfox_state::draw_sprites`: the inner `dx` loop,
then `if (n == 2) code += 2;`. -/
def rowStep (g : Nat → Nat → Nat → Nat) (cl : Clip) (fx fy : Bool) (x y : Int)
    (xs : List Nat) (n : Nat) (st : Fb × Nat) (dy : Nat) : Fb × Nat :=
  let st2 := xs.foldl (tileStep g cl fx fy x y dy) st
  (st2.1, if n = 2 then st2.2 + 2 else st2.2)

/-- Body of `skyfox_state::draw_sprites` for the 4-byte entry at byte offset
`o`: decode code/flip/position, pick size `n` and `low_code` from
`code & 0x88`, apply the flip-screen transform when `m_bg_ctrl & 1`, then walk
the n-by-n tile grid. -/
def drawSprite (s : SkyfoxSnap) (cl : Clip) (fb : Fb) (o : Nat) : Fb :=
  let shift := if (s.bg_ctrl % 256) &&& 0x80 ≠ 0 then 4 - 1 else 4
  let code0 := (s.spriteram (o + 3) % 256) <<< 8 ||| (s.spriteram (o + 2) % 256)
  let high_code := ((code0 >>> 4) &&& 0x7f0) + ((code0 &&& 0x8000) >>> shift)
  let nl : Nat × Nat :=
    if code0 &&& 0x88 = 0x88 then (4, 0)
    else if code0 &&& 0x88 = 0x08 then
      (2, (code0 &&& 0x20) >>> 2 ||| (code0 &&& 0x10) >>> 3)
    else (1, (code0 >>> 4) &&& 0xf)
  let n := nl.1
  let flipscreen := (s.bg_ctrl % 256) &&& 1 ≠ 0
  let x : Int :=
    if flipscreen then s.width - (((s.spriteram (o + 1) % 256) <<< 1 ||| (code0 &&& 1) : Nat) : Int) - (n : Nat) * 8
    else (((s.spriteram (o + 1) % 256) <<< 1 ||| (code0 &&& 1) : Nat) : Int)
  let y : Int :=
    if flipscreen then s.height - ((s.spriteram o % 256 : Nat) : Int) - (n : Nat) * 8
    else ((s.spriteram o % 256 : Nat) : Int)
  let flipx := if flipscreen then !(decide (code0 &&& 0x2 ≠ 0)) else decide (code0 &&& 0x2 ≠ 0)
  let flipy := if flipscreen then !(decide (code0 &&& 0x4 ≠ 0)) else decide (code0 &&& 0x4 ≠ 0)
  let ys : List Nat := if flipy then (List.range n).reverse else List.range n
  let xs : List Nat := if flipx then (List.range n).reverse else List.range n
  (ys.foldl (rowStep s.gfx cl flipx flipy x y xs n) (fb, nl.2 + high_code)).1

/-- Translation of `skyfox_state::draw_sprites`: the loop
`for (offs = 0; offs < m_spriteram.bytes(); offs += 4)` visits the byte
offsets `4 * k` for `k < ceil(bytes / 4)`. -/
def draw_sprites (s : SkyfoxSnap) (cl : Clip) (fb : Fb) : Fb :=
  (List.range ((s.sprLen + 3) / 4)).foldl (fun fb k => drawSprite s cl fb (4 * k)) fb

/-- MAME `bitmap.fill(color, cliprect)`: store `color` at every pixel inside
the clip rectangle (framework code, modelled from the spec, section 4.8
"clear to 0xFF"). -/
def fill (v : Nat) (cl : Clip) (fb : Fb) : Fb :=
  fun y x => if inClipB cl x y then v else fb y x

/-- Translation of `skyfox_state::screen_update_skyfox`:
fill with 0xff, then background stars, then sprites. -/
def screen_update_skyfox (s : SkyfoxSnap) (cl : Clip) (fb : Fb) : Fb :=
  draw_sprites s cl (draw_background s (fill 0xff cl fb))

/-! ### Specification-side definitions

These follow the wording of the spec and of the claims, to be compared with
the source-translated functions above. -/

/-- Spec wording of one star-field iteration (claim C1, spec section 4.3):
`pos`, `offs` with `pattern = (bg_ctrl >> 1) & 0x3`, `pen`, `x`, `y`, then
suppress the star exactly when bit 3 of `bg_ctrl` is set and
`(bg_ctrl >> 4) & 0x3` equals `pen & 0x3`, else write `fb[y mod 256, x mod 512]`. -/
def spec_starStep (s : SkyfoxSnap) (fb : Fb) (i : Nat) : Fb :=
  let pos := (s.bgram (0xe0 + (i &&& 0xf) * 2 + 1) % 256) * 2 +
    (if Nat.testBit (s.bgram (0xe0 + (i &&& 0xf) * 2) % 256) 7 then 1 else 0)
  let offs := (i * 2) % 0x2000 + (((s.bg_ctrl % 256) >>> 1) &&& 0x3) * 0x2000
  let pen := s.bg_rom offs % 256
  let x := (s.bg_rom (offs + 1) % 256) * 2 + pos + 0x5b
  let y := (i >>> 4) + 1
  if Nat.testBit (s.bg_ctrl % 256) 3 ∧ ((s.bg_ctrl % 256) >>> 4) &&& 0x3 = pen &&& 0x3 then fb
  else fbSet fb ((y % 256 : Nat) : Int) ((x % 512 : Nat) : Int) pen

/-- Spec wording of one sprite entry (claim C2, spec section 4.4): size table
from `code16 & 0x88`, `high_code` with `shift = 3` when bit 7 of `bg_ctrl` is
set else 4, flip-screen transform, then the n-by-n walk where the tile at row
position `ry`, column position `rx` (in walk order) carries code
`low + high + ry*n + rx`, plus `2*ry` more when `n = 2` (the per-row skip),
each tile blitted at `(dx*8 + x, dy*8 + y)` and `(dx*8 + x, dy*8 + y - 256)`
with transparent index 0xff. -/
def spec_drawSprite (s : SkyfoxSnap) (cl : Clip) (fb : Fb) (o : Nat) : Fb :=
  let code16 := (s.spriteram (o + 3) % 256) <<< 8 ||| (s.spriteram (o + 2) % 256)
  let shift := if Nat.testBit (s.bg_ctrl % 256) 7 then 3 else 4
  let high_code := ((code16 >>> 4) &&& 0x7f0) + ((code16 &&& 0x8000) >>> shift)
  let n : Nat := if code16 &&& 0x88 = 0x88 then 4 else if code16 &&& 0x88 = 0x08 then 2 else 1
  let low_code : Nat :=
    if code16 &&& 0x88 = 0x88 then 0
    else if code16 &&& 0x88 = 0x08 then (code16 &&& 0x20) >>> 2 ||| (code16 &&& 0x10) >>> 3
    else (code16 >>> 4) &&& 0xf
  let flipscreen := (s.bg_ctrl % 256) &&& 1 ≠ 0
  let x : Int :=
    if flipscreen then s.width - (((s.spriteram (o + 1) % 256) <<< 1 ||| (code16 &&& 1) : Nat) : Int) - (n : Nat) * 8
    else (((s.spriteram (o + 1) % 256) <<< 1 ||| (code16 &&& 1) : Nat) : Int)
  let y : Int :=
    if flipscreen then s.height - ((s.spriteram o % 256 : Nat) : Int) - (n : Nat) * 8
    else ((s.spriteram o % 256 : Nat) : Int)
  let flipx := if flipscreen then !(decide (code16 &&& 0x2 ≠ 0)) else decide (code16 &&& 0x2 ≠ 0)
  let flipy := if flipscreen then !(decide (code16 &&& 0x4 ≠ 0)) else decide (code16 &&& 0x4 ≠ 0)
  (List.range n).foldl (fun fb ry =>
    (List.range n).foldl (fun fb rx =>
      let dy : Nat := if flipy then n - 1 - ry else ry
      let dx : Nat := if flipx then n - 1 - rx else rx
      let code := low_code + high_code + (ry * n + rx) + (if n = 2 then 2 * ry else 0)
      transpen s.gfx cl code flipx flipy ((dx : Nat) * 8 + x) ((dy : Nat) * 8 + y - 256) 0xff
        (transpen s.gfx cl code flipx flipy ((dx : Nat) * 8 + x) ((dy : Nat) * 8 + y) 0xff fb)) fb) fb

/-- Parameters a Sky Fox sprite entry decodes to, before any blit. -/
structure SpriteDecode where
  n : Nat
  code : Nat
  x : Int
  y : Int
  flipx : Bool
  flipy : Bool

/-- The position, flip flags, size and tile code decoded from the 4-byte entry
at offset `o`, without the flip-screen transform (spec section 4.4). -/
def rawDecode (s : SkyfoxSnap) (o : Nat) : SpriteDecode :=
  let code0 := (s.spriteram (o + 3) % 256) <<< 8 ||| (s.spriteram (o + 2) % 256)
  let shift := if (s.bg_ctrl % 256) &&& 0x80 ≠ 0 then 4 - 1 else 4
  let high_code := ((code0 >>> 4) &&& 0x7f0) + ((code0 &&& 0x8000) >>> shift)
  let nl : Nat × Nat :=
    if code0 &&& 0x88 = 0x88 then (4, 0)
    else if code0 &&& 0x88 = 0x08 then
      (2, (code0 &&& 0x20) >>> 2 ||| (code0 &&& 0x10) >>> 3)
    else (1, (code0 >>> 4) &&& 0xf)
  { n := nl.1
    code := nl.2 + high_code
    x := (((s.spriteram (o + 1) % 256) <<< 1 ||| (code0 &&& 1) : Nat) : Int)
    y := ((s.spriteram o % 256 : Nat) : Int)
    flipx := decide (code0 &&& 0x2 ≠ 0)
    flipy := decide (code0 &&& 0x4 ≠ 0) }

/-- The flip-screen transform of spec section 4.4:
`x := width - x - n*8`, `y := height - y - n*8`, negate both flip flags. -/
def flipXform (w h : Int) (d : SpriteDecode) : SpriteDecode :=
  { d with x := w - d.x - (d.n : Nat) * 8, y := h - d.y - (d.n : Nat) * 8,
           flipx := !d.flipx, flipy := !d.flipy }

/-- The tile walk of one sprite, driven by already-decoded parameters. -/
def spriteBlit (g : Nat → Nat → Nat → Nat) (cl : Clip) (fb : Fb) (d : SpriteDecode) : Fb :=
  let ys : List Nat := if d.flipy then (List.range d.n).reverse else List.range d.n
  let xs : List Nat := if d.flipx then (List.range d.n).reverse else List.range d.n
  (ys.foldl (rowStep g cl d.flipx d.flipy d.x d.y xs d.n) (fb, d.code)).1

/-! ### Chack'n Pop (`src/mame/taito/chaknpop.cpp`) -/

/-- Byte length of the Chack'n Pop sprite RAM window, source line
`map(0x9840, 0x98ff).ram().share("spr_ram");`. -/
def chaknpop_sprRamLen : Nat := 0x98ff - 0x9840 + 1

/-- Number of 4-byte sprite entries the Chack'n Pop sprite table holds. -/
def chaknpop_spriteCount : Nat := chaknpop_sprRamLen / 4

/-- Modelled from the spec: the Chack'n Pop sprite renderer (its video file is
not among the repository's three files) reads 4-byte entries laid out
tile / colour / y / x (spec section 4.7). -/
def chaknpopSprite (ram : Nat → Nat) (o : Nat) : Nat × Nat × Nat × Nat :=
  (ram o % 256, ram (o + 1) % 256, ram (o + 2) % 256, ram (o + 3) % 256)

/-! ### Concrete snapshots for the spec's scenarios -/

/-- The full Sky Fox visible area (512 columns, 256 rows). -/
def clipFull : Clip := { min_x := 0, max_x := 511, min_y := 0, max_y := 255 }

/-- A one-pixel clip rectangle at the origin. -/
def clipPt : Clip := { min_x := 0, max_x := 0, min_y := 0, max_y := 0 }

/-- An arbitrary concrete prior framebuffer content. -/
def fbInit : Fb := fun _ _ => 0x33

/-- Scenario A snapshot: `bg_ctrl = 0`, all `bgram` zero, `bg_rom` all zero,
all sprite pixels transparent (every gfx pixel is the transparent index). -/
def sA : SkyfoxSnap where
  bgram := fun _ => 0
  bg_rom := fun _ => 0
  spriteram := fun _ => 0
  sprLen := 1024
  gfx := fun _ _ _ => 0xff
  bg_ctrl := 0
  width := 512
  height := 256

/-- Scenario B sprite table: first entry `{0x10, 0x40, 0x88, 0x00}`, rest zero. -/
def sprB : Nat → Nat := fun j =>
  if j = 0 then 0x10 else if j = 1 then 0x40 else if j = 2 then 0x88 else 0

/-- Scenario B gfx: the sixteen 8x8 tiles of 32x32 ROM tile 0 are filled with
palette index 1, every other tile is fully transparent. -/
def gfxB : Nat → Nat → Nat → Nat := fun c _ _ => if c < 16 then 1 else 0xff

/-- Scenario B snapshot: single 32x32 sprite, empty star data. -/
def sB : SkyfoxSnap where
  bgram := fun _ => 0
  bg_rom := fun _ => 0
  spriteram := sprB
  sprLen := 4
  gfx := gfxB
  bg_ctrl := 0
  width := 512
  height := 256

/-- A snapshot agreeing with `sA` on everything the star field reads (odd
`bgram` bytes and bit 7 of even `bgram` bytes) but differing on all the other
`bgram` bits. -/
def sA9 : SkyfoxSnap := { sA with bgram := fun j => if j % 2 = 0 then 0x7f else 0 }

/-- The `sA` snapshot with star pattern bank 1 selected (`bg_ctrl = 2`). -/
def sPat : SkyfoxSnap := { sA with bg_ctrl := 2 }

/-! ### Generic write-fold lemmas -/

theorem fbSet_eval (fb : Fb) (y x : Int) (v : Nat) (y0 x0 : Int) :
    fbSet fb y x v y0 x0 = if y0 = y ∧ x0 = x then v else fb y0 x0 := rfl

theorem fbSet_self (fb : Fb) (y x : Int) (v : Nat) : fbSet fb y x v y x = v := by
  simp [fbSet]

theorem fbSet_ne (fb : Fb) (y x : Int) (v : Nat) (y0 x0 : Int)
    (h : ¬(y0 = y ∧ x0 = x)) : fbSet fb y x v y0 x0 = fb y0 x0 := by
  simp only [fbSet, if_neg h]

/-- A pixel no guarded write of the fold targets keeps its prior value. -/
theorem condWriteFold_pres {c : Nat → Bool} {fy fx : Nat → Int} {p : Nat → Nat}
    {l : List Nat} {y x : Int}
    (h : ∀ i ∈ l, c i = true → ¬(fy i = y ∧ fx i = x)) :
    ∀ fb : Fb, condWriteFold c fy fx p l fb y x = fb y x := by
  induction l with
  | nil => intro fb; rfl
  | cons i t ih =>
    intro fb
    have hi := h i (by simp)
    have ht : ∀ j ∈ t, c j = true → ¬(fy j = y ∧ fx j = x) := fun j hj => h j (by simp [hj])
    show condWriteFold c fy fx p t (if c i then fbSet fb (fy i) (fx i) (p i) else fb) y x = fb y x
    rw [ih ht]
    by_cases hc : c i
    · rw [if_pos hc, fbSet_eval, if_neg (fun hp => hi hc ⟨hp.1.symm, hp.2.symm⟩)]
    · rw [if_neg hc]

/-- A fold whose guard is everywhere false writes nothing at all. -/
theorem condWriteFold_false {c : Nat → Bool} {fy fx : Nat → Int} {p : Nat → Nat}
    {l : List Nat} (h : ∀ i ∈ l, c i = false) :
    ∀ fb : Fb, condWriteFold c fy fx p l fb = fb := by
  induction l with
  | nil => intro fb; rfl
  | cons i t ih =>
    intro fb
    have hi := h i (by simp)
    have ht : ∀ j ∈ t, c j = false := fun j hj => h j (by simp [hj])
    show condWriteFold c fy fx p t (if c i then fbSet fb (fy i) (fx i) (p i) else fb) = fb
    rw [ih ht, if_neg (by simp [hi])]

/-- The fold's value at a pixel depends on the prior framebuffer only through
that same pixel. -/
theorem condWriteFold_congrPt {c : Nat → Bool} {fy fx : Nat → Int} {p : Nat → Nat}
    {l : List Nat} {y x : Int} :
    ∀ fb1 fb2 : Fb, fb1 y x = fb2 y x →
      condWriteFold c fy fx p l fb1 y x = condWriteFold c fy fx p l fb2 y x := by
  induction l with
  | nil => intro fb1 fb2 h; exact h
  | cons i t ih =>
    intro fb1 fb2 h
    show condWriteFold c fy fx p t (if c i then fbSet fb1 (fy i) (fx i) (p i) else fb1) y x
       = condWriteFold c fy fx p t (if c i then fbSet fb2 (fy i) (fx i) (p i) else fb2) y x
    apply ih
    by_cases hc : c i
    · rw [if_pos hc, if_pos hc]
      by_cases hp : y = fy i ∧ x = fx i
      · rw [show (fbSet fb1 (fy i) (fx i) (p i) y x) = p i by simp [fbSet, hp],
            show (fbSet fb2 (fy i) (fx i) (p i) y x) = p i by simp [fbSet, hp]]
      · rw [fbSet_ne _ _ _ _ _ _ hp, fbSet_ne _ _ _ _ _ _ hp]; exact h
    · rw [if_neg hc, if_neg hc]; exact h

/-- When every candidate write carries the same value `v`, a pixel either keeps
its prior value or ends at `v`. -/
theorem condWriteFold_presOrConst {c : Nat → Bool} {fy fx : Nat → Int} {p : Nat → Nat}
    {l : List Nat} {y x : Int} {v : Nat} (h : ∀ i ∈ l, p i = v) :
    ∀ fb : Fb, condWriteFold c fy fx p l fb y x = fb y x ∨
      condWriteFold c fy fx p l fb y x = v := by
  induction l with
  | nil => intro fb; exact Or.inl rfl
  | cons i t ih =>
    intro fb
    have hi := h i (by simp)
    have ht : ∀ j ∈ t, p j = v := fun j hj => h j (by simp [hj])
    have hshow : condWriteFold c fy fx p (i :: t) fb y x
        = condWriteFold c fy fx p t (if c i then fbSet fb (fy i) (fx i) (p i) else fb) y x := rfl
    rw [hshow]
    rcases ih ht (if c i then fbSet fb (fy i) (fx i) (p i) else fb) with h1 | h1
    · rw [h1]
      by_cases hc : c i
      · rw [if_pos hc, fbSet_eval]
        by_cases hp : y = fy i ∧ x = fx i
        · rw [if_pos hp]; exact Or.inr hi
        · rw [if_neg hp]; exact Or.inl rfl
      · rw [if_neg hc]; exact Or.inl rfl
    · exact Or.inr h1

/-- When every candidate write carries `v` and at least one guarded write hits
the pixel, that pixel ends at `v` no matter the prior framebuffer. -/
theorem condWriteFold_setsConst {c : Nat → Bool} {fy fx : Nat → Int} {p : Nat → Nat}
    {l : List Nat} {y x : Int} {v : Nat} (hp : ∀ i ∈ l, p i = v)
    (hex : ∃ i ∈ l, c i = true ∧ fy i = y ∧ fx i = x) :
    ∀ fb : Fb, condWriteFold c fy fx p l fb y x = v := by
  induction l with
  | nil => exact absurd hex (by simp)
  | cons i t ih =>
    intro fb
    have hpi := hp i (by simp)
    have hpt : ∀ j ∈ t, p j = v := fun j hj => hp j (by simp [hj])
    show condWriteFold c fy fx p t (if c i then fbSet fb (fy i) (fx i) (p i) else fb) y x = v
    by_cases hext : ∃ j ∈ t, c j = true ∧ fy j = y ∧ fx j = x
    · exact ih hpt hext _
    · rcases hex with ⟨j, hj, hcj, hyj, hxj⟩
      rcases List.mem_cons.mp hj with rfl | hjt
      · rcases condWriteFold_presOrConst hpt (if c j then fbSet fb (fy j) (fx j) (p j) else fb)
          with h1 | h1
        · rw [h1, if_pos hcj, fbSet_eval, if_pos ⟨hyj.symm, hxj.symm⟩, hpi]
        · exact h1
      · exact absurd ⟨j, hjt, hcj, hyj, hxj⟩ hext

/-! ### Pointwise determinism (`DetAt`) -/

/-- A framebuffer transformer is deterministic at a pixel when its output
there depends on the input only through that pixel, and, whenever it can
change the pixel at all, the output there does not depend on the input. -/
def DetAt (g : Fb → Fb) (y x : Int) : Prop :=
  (∀ fb1 fb2 : Fb, fb1 y x = fb2 y x → g fb1 y x = g fb2 y x) ∧
  ((∃ fb : Fb, g fb y x ≠ fb y x) → ∀ fb1 fb2 : Fb, g fb1 y x = g fb2 y x)

theorem detAt_comp {g h : Fb → Fb} {y x : Int} (hg : DetAt g y x) (hh : DetAt h y x) :
    DetAt (fun fb => h (g fb)) y x := by
  constructor
  · intro fb1 fb2 he
    exact hh.1 _ _ (hg.1 _ _ he)
  · intro hch fb1 fb2
    by_cases hdh : ∃ fb : Fb, h fb y x ≠ fb y x
    · exact hh.2 hdh _ _
    · push_neg at hdh
      have hfix : ∀ fb : Fb, h fb y x = fb y x := hdh
      rcases hch with ⟨fb, hfb⟩
      have hfb2 : h (g fb) y x ≠ fb y x := hfb
      rw [hfix (g fb)] at hfb2
      have hgex : ∃ fb : Fb, g fb y x ≠ fb y x := ⟨fb, hfb2⟩
      show h (g fb1) y x = h (g fb2) y x
      rw [hfix (g fb1), hfix (g fb2)]
      exact hg.2 hgex _ _

theorem detAt_condWriteFold {c : Nat → Bool} {fy fx : Nat → Int} {p : Nat → Nat}
    {l : List Nat} {y x : Int} : DetAt (condWriteFold c fy fx p l) y x := by
  induction l with
  | nil => exact ⟨fun fb1 fb2 h => h, fun hch fb1 fb2 => absurd hch (by simp [condWriteFold])⟩
  | cons i t ih =>
    have hstep : DetAt (fun fb => if c i then fbSet fb (fy i) (fx i) (p i) else fb) y x := by
      constructor
      · intro fb1 fb2 he
        by_cases hc : c i
        · simp only [if_pos hc]
          by_cases hp : y = fy i ∧ x = fx i
          · simp [fbSet, hp]
          · rw [fbSet_ne _ _ _ _ _ _ hp, fbSet_ne _ _ _ _ _ _ hp]; exact he
        · simpa [if_neg hc] using he
      · intro hch fb1 fb2
        by_cases hc : c i
        · simp only [if_pos hc]
          by_cases hp : y = fy i ∧ x = fx i
          · simp [fbSet, hp]
          · exfalso
            rcases hch with ⟨fb, hfb⟩
            have hfb2 : (if c i then fbSet fb (fy i) (fx i) (p i) else fb) y x ≠ fb y x := hfb
            rw [if_pos hc, fbSet_ne _ _ _ _ _ _ hp] at hfb2
            exact hfb2 rfl
        · exfalso
          rcases hch with ⟨fb, hfb⟩
          have hfb2 : (if c i then fbSet fb (fy i) (fx i) (p i) else fb) y x ≠ fb y x := hfb
          rw [if_neg hc] at hfb2
          exact hfb2 rfl
    have : DetAt (fun fb => condWriteFold c fy fx p t
        (if c i then fbSet fb (fy i) (fx i) (p i) else fb)) y x := detAt_comp hstep ih
    exact this

/-! ### Folds over a (framebuffer, counter) state -/

theorem foldlFb_presPt {α : Type} (f : Fb → α → Fb) (l : List α) (Y X : Int)
    (h : ∀ (fb : Fb) (a : α), a ∈ l → f fb a Y X = fb Y X) :
    ∀ fb : Fb, (l.foldl f fb) Y X = fb Y X := by
  induction l with
  | nil => intro fb; rfl
  | cons a t ih =>
    intro fb
    rw [List.foldl_cons, ih (fun fb b hb => h fb b (by simp [hb])), h fb a (by simp)]

theorem pairFoldFst_presPt {α β : Type} (f : Fb × β → α → Fb × β) (l : List α) (Y X : Int)
    (h : ∀ st a, a ∈ l → (f st a).1 Y X = st.1 Y X) :
    ∀ st, ((l.foldl f st).1) Y X = st.1 Y X := by
  induction l with
  | nil => intro st; rfl
  | cons a t ih =>
    intro st
    rw [List.foldl_cons, ih (fun st b hb => h st b (by simp [hb])), h st a (by simp)]

theorem pairFoldFst_id {α β : Type} (f : Fb × β → α → Fb × β) (l : List α)
    (h : ∀ st a, (f st a).1 = st.1) : ∀ st, (l.foldl f st).1 = st.1 := by
  induction l with
  | nil => intro st; rfl
  | cons a t ih =>
    intro st
    rw [List.foldl_cons, ih (f st a), h st a]

theorem pairFoldSnd_indep {α : Type} (f : Fb × Nat → α → Fb × Nat) (l : List α)
    (hs : ∀ (fb1 fb2 : Fb) (c : Nat) (a : α), (f (fb1, c) a).2 = (f (fb2, c) a).2) :
    ∀ (c : Nat) (fb1 fb2 : Fb), (l.foldl f (fb1, c)).2 = (l.foldl f (fb2, c)).2 := by
  induction l with
  | nil => intro c fb1 fb2; rfl
  | cons a t ih =>
    intro c fb1 fb2
    rw [List.foldl_cons, List.foldl_cons]
    have e1 : f (fb1, c) a = ((f (fb1, c) a).1, (f (fb2, c) a).2) := by
      rw [← hs fb1 fb2 c a]
    have e2 : f (fb2, c) a = ((f (fb2, c) a).1, (f (fb2, c) a).2) := rfl
    rw [e1, e2]
    exact ih _ _ _

theorem pairFold_detAt {α : Type} (f : Fb × Nat → α → Fb × Nat) (l : List α) (Y X : Int)
    (hs : ∀ (fb1 fb2 : Fb) (c : Nat) (a : α), (f (fb1, c) a).2 = (f (fb2, c) a).2)
    (hdet : ∀ (c : Nat) (a : α), DetAt (fun fb => (f (fb, c) a).1) Y X) :
    ∀ c : Nat, DetAt (fun fb => ((l.foldl f (fb, c)).1)) Y X := by
  induction l with
  | nil =>
    intro c
    refine ⟨fun fb1 fb2 h => h, fun hch fb1 fb2 => absurd hch ?_⟩
    push_neg
    intro fb
    rfl
  | cons a t ih =>
    intro c
    have e : ∀ fb : Fb, f (fb, c) a = ((f (fb, c) a).1, (f ((fun _ _ => 0 : Fb), c) a).2) := by
      intro fb
      rw [← hs fb (fun _ _ => 0) c a]
    have heq : (fun fb => (((a :: t).foldl f (fb, c)).1))
        = fun fb => ((t.foldl f ((f (fb, c) a).1, (f ((fun _ _ => 0 : Fb), c) a).2)).1) := by
      funext fb
      rw [List.foldl_cons, e fb]
    rw [heq]
    exact detAt_comp (hdet c a) (ih _)

/-! ### Blitter-level lemmas -/

theorem transpen_outside {g : Nat → Nat → Nat → Nat} {cl : Clip} {code : Nat}
    {fx fy : Bool} {sx sy : Int} {tr : Nat} {Y X : Int}
    (h : inClipB cl X Y = false) :
    ∀ fb : Fb, transpen g cl code fx fy sx sy tr fb Y X = fb Y X := by
  apply condWriteFold_pres
  intro k hk hc hp
  have hclip : inClipB cl (sx + ((k % 8 : Nat) : Int)) (sy + ((k / 8 : Nat) : Int)) = true :=
    (Bool.and_eq_true _ _ |>.mp hc).2
  rw [hp.2, hp.1] at hclip
  rw [h] at hclip
  exact Bool.false_ne_true hclip

theorem transpen_presPt {g : Nat → Nat → Nat → Nat} {cl : Clip} {code : Nat}
    {fx fy : Bool} {sx sy : Int} {tr : Nat} {Y X : Int}
    (h : ¬(sy ≤ Y ∧ Y < sy + 8 ∧ sx ≤ X ∧ X < sx + 8)) :
    ∀ fb : Fb, transpen g cl code fx fy sx sy tr fb Y X = fb Y X := by
  apply condWriteFold_pres
  intro k hk hc hp
  rw [List.mem_range] at hk
  apply h
  have h1 : (k / 8 : Nat) < 8 := by omega
  have h2 : (k % 8 : Nat) < 8 := by omega
  constructor
  · rw [← hp.1]; omega
  constructor
  · rw [← hp.1]
    have : ((k / 8 : Nat) : Int) < 8 := by exact_mod_cast h1
    omega
  constructor
  · rw [← hp.2]; omega
  · rw [← hp.2]
    have : ((k % 8 : Nat) : Int) < 8 := by exact_mod_cast h2
    omega

theorem transpen_setsConst {g : Nat → Nat → Nat → Nat} {cl : Clip} {code : Nat}
    {fx fy : Bool} {sx sy : Int} {tr v : Nat} {Y X : Int}
    (hpen : ∀ k : Nat, k < 64 → tpPen g code fx fy k = v) (hv : v ≠ tr)
    (hy1 : sy ≤ Y) (hy2 : Y < sy + 8) (hx1 : sx ≤ X) (hx2 : X < sx + 8)
    (hclip : inClipB cl X Y = true) :
    ∀ fb : Fb, transpen g cl code fx fy sx sy tr fb Y X = v := by
  apply condWriteFold_setsConst
  · intro k hk
    exact hpen k (List.mem_range.mp hk)
  · refine ⟨(Y - sy).toNat * 8 + (X - sx).toNat, ?_, ?_, ?_, ?_⟩
    · rw [List.mem_range]; omega
    · have hmod : ((Y - sy).toNat * 8 + (X - sx).toNat) % 8 = (X - sx).toNat := by omega
      have hdiv : ((Y - sy).toNat * 8 + (X - sx).toNat) / 8 = (Y - sy).toNat := by omega
      rw [tpCond, hpen _ (by omega), hmod, hdiv]
      have ex : sx + (((X - sx).toNat : Nat) : Int) = X := by omega
      have ey : sy + (((Y - sy).toNat : Nat) : Int) = Y := by omega
      rw [ex, ey, hclip]
      simp [hv]
    · have hdiv : ((Y - sy).toNat * 8 + (X - sx).toNat) / 8 = (Y - sy).toNat := by omega
      rw [hdiv]; omega
    · have hmod : ((Y - sy).toNat * 8 + (X - sx).toNat) % 8 = (X - sx).toNat := by omega
      rw [hmod]; omega

theorem transpen_presOrConst {g : Nat → Nat → Nat → Nat} {cl : Clip} {code : Nat}
    {fx fy : Bool} {sx sy : Int} {tr v : Nat} {Y X : Int}
    (hpen : ∀ k : Nat, k < 64 → tpPen g code fx fy k = v) :
    ∀ fb : Fb, transpen g cl code fx fy sx sy tr fb Y X = fb Y X ∨
      transpen g cl code fx fy sx sy tr fb Y X = v := by
  apply condWriteFold_presOrConst
  intro k hk
  exact hpen k (List.mem_range.mp hk)

/-- A blit whose every pixel decodes to the transparent index writes nothing. -/
theorem transpen_id {g : Nat → Nat → Nat → Nat} {cl : Clip} {code : Nat}
    {fx fy : Bool} {sx sy : Int} {tr : Nat}
    (h : ∀ k : Nat, k < 64 → tpPen g code fx fy k = tr) :
    ∀ fb : Fb, transpen g cl code fx fy sx sy tr fb = fb := by
  apply condWriteFold_false
  intro k hk
  rw [tpCond, h k (List.mem_range.mp hk)]
  simp

/-! ### Sprite-walk-level lemmas -/

theorem foldlFb_id {α : Type} (f : Fb → α → Fb) (l : List α)
    (h : ∀ (fb : Fb) (a : α), f fb a = fb) : ∀ fb : Fb, l.foldl f fb = fb := by
  induction l with
  | nil => intro fb; rfl
  | cons a t ih => intro fb; rw [List.foldl_cons, h fb a, ih fb]

theorem rowFold_presPt (g : Nat → Nat → Nat → Nat) (cl : Clip) (fx fy : Bool)
    (x y : Int) (xs : List Nat) (n : Nat) (ys : List Nat) (Y X : Int)
    (h : ∀ (code : Nat) (sx sy : Int) (fb : Fb),
      transpen g cl code fx fy sx sy 0xff fb Y X = fb Y X) :
    ∀ st, ((ys.foldl (rowStep g cl fx fy x y xs n) st).1) Y X = st.1 Y X := by
  apply pairFoldFst_presPt
  intro st dy _
  show ((xs.foldl (tileStep g cl fx fy x y dy) st).1) Y X = st.1 Y X
  apply pairFoldFst_presPt
  intro st2 dx _
  show transpen g cl st2.2 fx fy _ _ 0xff (transpen g cl st2.2 fx fy _ _ 0xff st2.1) Y X
      = st2.1 Y X
  rw [h, h]

theorem rowFold_id (g : Nat → Nat → Nat → Nat) (cl : Clip) (fx fy : Bool)
    (x y : Int) (xs : List Nat) (n : Nat) (ys : List Nat)
    (h : ∀ (code : Nat) (sx sy : Int) (fb : Fb),
      transpen g cl code fx fy sx sy 0xff fb = fb) :
    ∀ st, ((ys.foldl (rowStep g cl fx fy x y xs n) st).1) = st.1 := by
  apply pairFoldFst_id
  intro st dy
  show ((xs.foldl (tileStep g cl fx fy x y dy) st).1) = st.1
  apply pairFoldFst_id
  intro st2 dx
  show transpen g cl st2.2 fx fy _ _ 0xff (transpen g cl st2.2 fx fy _ _ 0xff st2.1)
      = st2.1
  rw [h, h]

/-- A sprite entry writes no pixel outside the clip rectangle. -/
theorem drawSprite_outside {s : SkyfoxSnap} {cl : Clip} {o : Nat} {Y X : Int}
    (h : inClipB cl X Y = false) (fb : Fb) : drawSprite s cl fb o Y X = fb Y X := by
  unfold drawSprite
  exact rowFold_presPt _ _ _ _ _ _ _ _ _ Y X
    (fun code sx sy fb => transpen_outside h fb) _

/-- The sprite layer writes no pixel outside the clip rectangle. -/
theorem drawSprites_outside {s : SkyfoxSnap} {cl : Clip} {Y X : Int}
    (h : inClipB cl X Y = false) (fb : Fb) : draw_sprites s cl fb Y X = fb Y X := by
  unfold draw_sprites
  exact foldlFb_presPt _ _ Y X (fun fb k _ => drawSprite_outside h fb) fb

/-- With every gfx pixel transparent, one sprite entry leaves the framebuffer
untouched. -/
theorem drawSprite_transparent {s : SkyfoxSnap} {cl : Clip} {o : Nat}
    (hg : ∀ c a b, s.gfx c a b % 256 = 0xff) (fb : Fb) :
    drawSprite s cl fb o = fb := by
  unfold drawSprite
  exact rowFold_id _ _ _ _ _ _ _ _ _
    (fun code sx sy fb => transpen_id (fun k hk => hg _ _ _) fb) _

/-- With every gfx pixel transparent, the whole sprite layer is the identity. -/
theorem drawSprites_transparent {s : SkyfoxSnap} {cl : Clip}
    (hg : ∀ c a b, s.gfx c a b % 256 = 0xff) (fb : Fb) :
    draw_sprites s cl fb = fb := by
  unfold draw_sprites
  exact foldlFb_id _ _ (fun fb k => drawSprite_transparent hg fb) fb

theorem detAt_transpen {g : Nat → Nat → Nat → Nat} {cl : Clip} {code : Nat}
    {fx fy : Bool} {sx sy : Int} {tr : Nat} {Y X : Int} :
    DetAt (fun fb => transpen g cl code fx fy sx sy tr fb) Y X :=
  detAt_condWriteFold

/-- A sprite entry is pointwise deterministic: wherever it writes at all, the
value it leaves does not depend on the framebuffer it drew over. -/
theorem detAt_drawSprite (s : SkyfoxSnap) (cl : Clip) (o : Nat) (Y X : Int) :
    DetAt (fun fb => drawSprite s cl fb o) Y X := by
  unfold drawSprite
  apply pairFold_detAt
  · intro fb1 fb2 c dy
    show (if _ = 2 then _ + 2 else _) = (if _ = 2 then _ + 2 else _)
    rw [pairFoldSnd_indep _ _ (fun _ _ _ _ => rfl) c fb1 fb2]
  · intro c dy
    show DetAt (fun fb => ((_ : List Nat).foldl (tileStep _ _ _ _ _ _ dy) (fb, c)).1) Y X
    apply pairFold_detAt
    · intro fb1 fb2 c2 dx
      rfl
    · intro c2 dx
      exact detAt_comp detAt_transpen detAt_transpen

/-! ### Bit-twiddling bridges between the source's and the spec's spellings -/

theorem and6_shift : ∀ b : Nat, b < 256 → ((b &&& 0x6) >>> 1) = ((b >>> 1) &&& 0x3) := by
  decide

theorem bit7_and : ∀ b : Nat, b < 256 → ((b &&& 0x80 ≠ 0) ↔ Nat.testBit b 7) := by
  decide

theorem bit3_and : ∀ b : Nat, b < 256 → ((b &&& 0x8 ≠ 0) ↔ Nat.testBit b 3) := by
  decide

theorem byteMod_lt (b : Nat) : b % 256 < 256 := Nat.mod_lt _ (by norm_num)

/-! ## Claim theorems -/

/-- C1: for every Sky Fox snapshot, `draw_background` performs, for each star
index `i` below 0x1000 in order, exactly the step the spec describes: compute
`pos` from the 16 position slots (odd byte times two plus bit 7 of the even
byte), `offs` from `(i*2) mod 0x2000` plus the pattern bank
`(bg_ctrl >> 1) & 3` times 0x2000, read `pen` and the x byte, set
`y = (i >> 4) + 1`, and write `fb[y mod 256, x mod 512] = pen` unless bit 3 of
`bg_ctrl` is set and `(bg_ctrl >> 4) & 3` equals `pen & 3`, in which case the
star is suppressed. -/
theorem C1_star_field (s : SkyfoxSnap) (fb : Fb) :
    draw_background s fb = (List.range 0x1000).foldl (spec_starStep s) fb := by
  unfold draw_background condWriteFold
  apply List.foldl_ext
  intro fb2 i hi
  have hctrl : s.bg_ctrl % 256 < 256 := byteMod_lt _
  show (if bgCond s i then
      fbSet fb2 ((bgY s i % 256 : Nat) : Int) ((bgX s i % 512 : Nat) : Int) (bgPen s i)
    else fb2) = spec_starStep s fb2 i
  simp only [spec_starStep]
  rw [show (((s.bg_ctrl % 256) >>> 1) &&& 0x3) = (((s.bg_ctrl % 256) &&& 0x6) >>> 1) from
    (and6_shift _ hctrl).symm]
  rw [show (if Nat.testBit (s.bgram (0xe0 + (i &&& 0xf) * 2) % 256) 7 then 1 else 0)
      = (if (s.bgram (0xe0 + (i &&& 0xf) * 2) % 256) &&& 0x80 ≠ 0 then 1 else 0) from by
    by_cases hb : (s.bgram (0xe0 + (i &&& 0xf) * 2) % 256) &&& 0x80 ≠ 0
    · rw [if_pos hb, if_pos ((bit7_and _ (byteMod_lt _)).mp hb)]
    · rw [if_neg hb, if_neg (fun ht => hb ((bit7_and _ (byteMod_lt _)).mpr ht))]]
  have hpen : bgPen s i
      = s.bg_rom ((i * 2) % 0x2000 + (((s.bg_ctrl % 256) &&& 0x6) >>> 1) * 0x2000) % 256 := by
    rw [bgPen, bgOffs]
  by_cases hsup : Nat.testBit (s.bg_ctrl % 256) 3 = true ∧
      (((s.bg_ctrl % 256) >>> 4) &&& 0x3)
        = (s.bg_rom ((i * 2) % 0x2000 + (((s.bg_ctrl % 256) &&& 0x6) >>> 1) * 0x2000) % 256) &&& 0x3
  · rw [if_pos hsup]
    have hcond : bgCond s i = false := by
      rw [bgCond, Bool.or_eq_false_iff]
      constructor
      · simp only [decide_eq_false_iff_not, ne_eq, not_not]
        rw [hpen]
        exact hsup.2
      · simp only [Bool.not_eq_false', decide_eq_true_eq]
        exact (bit3_and _ hctrl).mpr (by simpa using hsup.1)
    rw [hcond]
    simp
  · rw [if_neg hsup]
    have hcond : bgCond s i = true := by
      rw [bgCond, Bool.or_eq_true]
      by_cases hb : (s.bg_ctrl % 256) &&& 0x8 ≠ 0
      · left
        simp only [decide_eq_true_eq, ne_eq]
        rw [hpen]
        intro heq
        exact hsup ⟨by simpa using (bit3_and _ hctrl).mp hb, heq⟩
      · right
        simpa using hb
    rw [hcond]
    simp only [if_true, show (true = true) = True from by simp, if_pos trivial]
    rw [bgPen, bgX, bgY, bgPos, bgOffs]

/-- C5 counterexample: with star pattern bank 1 selected (`bg_ctrl = 2`), the
very first star already reads ROM offset 0x2000, which is not below 0x2000 —
the star-field ROM reads are not confined to 8 KiB. -/
theorem C5_counterexample : ¬ (bgOffs sPat 0 < 0x2000) := by decide

/-- C5 (amended): every ROM offset the star-field renderer reads (`offs` and
`offs + 1`) is strictly below 0x8000, the size of the four-bank (4 times
8 KiB) `gfx2` star ROM. -/
theorem C5_rom_reads_in_bounds (s : SkyfoxSnap) (i : Nat) (h : i < 0x1000) :
    bgOffs s i + 1 < 0x8000 := by
  rw [bgOffs]
  have h1 : (i * 2) % 0x2000 < 0x2000 := Nat.mod_lt _ (by norm_num)
  have h2 : ((s.bg_ctrl % 256) &&& 0x6) ≤ 6 := Nat.and_le_right
  rw [Nat.shiftRight_eq_div_pow]
  omega

/-- C5 witness: the amended bound at star index 5 of the scenario-A snapshot. -/
theorem C5_witness : 5 < 0x1000 ∧ bgOffs sA 5 + 1 < 0x8000 :=
  ⟨by norm_num, C5_rom_reads_in_bounds sA 5 (by norm_num)⟩

/-- C8 counterexample: the Chack'n Pop sprite region mapped at 0x9840-0x98ff is
192 bytes long, and no sprite count of at most 32 entries of 4 bytes each can
account for a 192-byte table. -/
theorem C8_counterexample :
    chaknpop_sprRamLen = 192 ∧ ∀ c : Nat, c ≤ 32 → 4 * c ≠ chaknpop_sprRamLen := by
  decide

/-- Every pixel of the visible area lies inside the full-screen clip. -/
theorem inClipFull_true {X Y : Int} (hx1 : 0 ≤ X) (hx2 : X ≤ 511) (hy1 : 0 ≤ Y)
    (hy2 : Y ≤ 255) : inClipB clipFull X Y = true := by
  simp only [inClipB, clipFull, Bool.and_eq_true, decide_eq_true_eq]
  exact ⟨⟨⟨hx1, hx2⟩, hy1⟩, hy2⟩

/-- In scenario A every star carries pen 0. -/
theorem bgPen_sA (i : Nat) : bgPen sA i = 0 := by
  simp [bgPen, bgOffs, sA]

/-- In scenario A every star lands in column 0x5b. -/
theorem bgX_sA (i : Nat) : bgX sA i = 91 := by
  simp [bgX, bgPos, bgOffs, sA]

/-- In scenario A (no blinking) every star is written. -/
theorem bgCond_sA (i : Nat) : bgCond sA i = true := by
  simp [bgCond, bgPen, bgOffs, sA]

/-- C3 counterexample: with a one-pixel clip rectangle at the origin, a render
of the scenario-A snapshot still overwrites pixel (row 1, column 0x5b), which
lies outside the clip — the star-field renderer ignores the clip rectangle. -/
theorem C3_counterexample :
    inClipB clipPt 91 1 = false ∧
    screen_update_skyfox sA clipPt fbInit 1 91 ≠ fbInit 1 91 := by
  constructor
  · decide
  · have hval : screen_update_skyfox sA clipPt fbInit 1 91 = 0 := by
      unfold screen_update_skyfox
      rw [drawSprites_transparent (s := sA) (fun c a b => rfl)]
      unfold draw_background
      apply condWriteFold_setsConst
      · intro i hi
        exact bgPen_sA i
      · exact ⟨0, List.mem_range.mpr (by norm_num), bgCond_sA 0, by decide, by rw [bgX_sA]; decide⟩
    rw [hval]
    decide

/-- C3 (amended): the fill and the sprite layers never write outside the clip
rectangle, but the Sky Fox star field writes with no regard to it, so after a
render an outside-clip pixel holds exactly what the star field alone leaves on
the prior contents. -/
theorem C3_outside_clip (s : SkyfoxSnap) (cl : Clip) (fb : Fb) (Y X : Int)
    (h : inClipB cl X Y = false) :
    screen_update_skyfox s cl fb Y X = draw_background s fb Y X := by
  unfold screen_update_skyfox
  rw [drawSprites_outside h]
  unfold draw_background
  apply condWriteFold_congrPt
  simp [fill, h]

/-- C3 witness: the amended statement at the outside-clip pixel (3, 91). -/
theorem C3_witness :
    inClipB clipPt 91 3 = false ∧
    screen_update_skyfox sA clipPt fbInit 3 91 = draw_background sA fbInit 3 91 :=
  ⟨by decide, C3_outside_clip sA clipPt fbInit 3 91 (by decide)⟩

/-- C6 counterexample: in scenario A the frame is not all 0xff — the 4096
stars all carry pen 0x00 and land in column 0x5b, so pixel (1, 0x5b) reads 0. -/
theorem C6_counterexample : screen_update_skyfox sA clipFull fbInit 1 91 ≠ 0xff := by
  have hval : screen_update_skyfox sA clipFull fbInit 1 91 = 0 := by
    unfold screen_update_skyfox
    rw [drawSprites_transparent (s := sA) (fun c a b => rfl)]
    unfold draw_background
    apply condWriteFold_setsConst
    · intro i hi
      exact bgPen_sA i
    · exact ⟨0, List.mem_range.mpr (by norm_num), bgCond_sA 0, by decide, by rw [bgX_sA]; decide⟩
  rw [hval]
  decide

/-- C6 (amended): rendering scenario A leaves every visible pixel at the clear
colour 0xff except column 0x5b, where the stars (all of pen 0x00) land in
every row, leaving that column at 0x00. -/
theorem C6_frame (fb : Fb) (Y X : Int) (hy1 : 0 ≤ Y) (hy2 : Y < 256)
    (hx1 : 0 ≤ X) (hx2 : X < 512) :
    screen_update_skyfox sA clipFull fb Y X = if X = 0x5b then 0 else 0xff := by
  unfold screen_update_skyfox
  rw [drawSprites_transparent (s := sA) (fun c a b => rfl)]
  by_cases hx : X = 0x5b
  · rw [if_pos hx]
    unfold draw_background
    apply condWriteFold_setsConst
    · intro i hi
      exact bgPen_sA i
    · refine ⟨((Y.toNat + 255) % 256) * 16,
        List.mem_range.mpr (by omega), bgCond_sA _, ?_, ?_⟩
      · have hy : (bgY sA (((Y.toNat + 255) % 256) * 16) % 256 : Nat) = Y.toNat := by
          rw [bgY, Nat.shiftRight_eq_div_pow]
          omega
        rw [hy]
        omega
      · rw [hx, bgX_sA]
        decide
  · rw [if_neg hx]
    unfold draw_background
    rw [condWriteFold_pres (fun i hi hc hp => hx (by rw [← hp.2, bgX_sA]; decide))]
    simp [fill, inClipFull_true hx1 (by omega) hy1 (by omega)]

/-- C6 witness: the amended statement evaluated at one star pixel and one
clear pixel of row 5. -/
theorem C6_witness :
    screen_update_skyfox sA clipFull fbInit 5 91 = 0 ∧
    screen_update_skyfox sA clipFull fbInit 5 90 = 0xff := by
  constructor
  · rw [C6_frame fbInit 5 91 (by norm_num) (by norm_num) (by norm_num) (by norm_num)]
    decide
  · rw [C6_frame fbInit 5 90 (by norm_num) (by norm_num) (by norm_num) (by norm_num)]
    decide

/-- C8 (amended): the Chack'n Pop sprite list is the single 192-byte `spr_ram`
region of 4-byte entries, so it holds up to 48 entries (192 = 4 * 48); the
byte layout of an entry is tile / colour / y / x. -/
theorem C8_sprite_table :
    chaknpop_sprRamLen = 4 * chaknpop_spriteCount ∧ chaknpop_spriteCount = 48 ∧
    ∀ (ram : Nat → Nat) (o : Nat),
      chaknpopSprite ram o = (ram o % 256, ram (o + 1) % 256, ram (o + 2) % 256, ram (o + 3) % 256) :=
  ⟨by decide, by decide, fun _ _ => rfl⟩

/-- The threaded-counter tile walk of `draw_sprites` equals the closed-form
walk in which the tile at walk position `(ry, rx)` carries code
`base + ry*n + rx`, plus `2*ry` more when `n = 2`. -/
theorem walk_eq (g : Nat → Nat → Nat → Nat) (cl : Clip) (fx fy : Bool) (x y : Int)
    (n base : Nat) (hn : n = 1 ∨ n = 2 ∨ n = 4) (fb : Fb) :
    ((if fy then (List.range n).reverse else List.range n).foldl
        (rowStep g cl fx fy x y (if fx then (List.range n).reverse else List.range n) n)
        (fb, base)).1
  = (List.range n).foldl (fun fb2 ry =>
      (List.range n).foldl (fun fb3 rx =>
        transpen g cl (base + (ry * n + rx) + (if n = 2 then 2 * ry else 0)) fx fy
          (((if fx then n - 1 - rx else rx : Nat) : Int) * 8 + x)
          (((if fy then n - 1 - ry else ry : Nat) : Int) * 8 + y - 256) 0xff
          (transpen g cl (base + (ry * n + rx) + (if n = 2 then 2 * ry else 0)) fx fy
            (((if fx then n - 1 - rx else rx : Nat) : Int) * 8 + x)
            (((if fy then n - 1 - ry else ry : Nat) : Int) * 8 + y) 0xff fb3)) fb2) fb := by
  rcases hn with rfl | rfl | rfl <;> cases fx <;> cases fy <;>
    simp only [show List.range 1 = [0] from by decide,
      show List.range 2 = [0, 1] from by decide,
      show List.range 4 = [0, 1, 2, 3] from by decide,
      show ([0] : List Nat).reverse = [0] from by decide,
      show ([0, 1] : List Nat).reverse = [1, 0] from by decide,
      show ([0, 1, 2, 3] : List Nat).reverse = [3, 2, 1, 0] from by decide] <;>
    unfold rowStep tileStep <;>
    norm_num

set_option maxHeartbeats 4000000 in
/-- C2: for every sprite-table entry, the renderer selects size and low code
from `code16 & 0x88` exactly per the spec's table, forms
`high_code = ((code16 >> 4) & 0x7F0) + ((code16 & 0x8000) >> shift)` with
`shift = 3` when bit 7 of `bg_ctrl` is set else 4, and walks the n-by-n grid
(rows and columns reversed under the flip flags) where the tile at walk
position `(ry, rx)` carries code `low + high + ry*n + rx` plus `2*ry` more
when `n = 2`, each tile blitted at `(dx*8 + x, dy*8 + y)` and at
`(dx*8 + x, dy*8 + y - 256)` with transparent index 0xff. -/
theorem C2_sprite_decode_walk (s : SkyfoxSnap) (cl : Clip) (fb : Fb) (o : Nat) :
    drawSprite s cl fb o = spec_drawSprite s cl fb o := by
  have hctrl : s.bg_ctrl % 256 < 256 := byteMod_lt _
  have hshift : (if Nat.testBit (s.bg_ctrl % 256) 7 then 3 else 4)
      = (if (s.bg_ctrl % 256) &&& 0x80 ≠ 0 then 4 - 1 else 4) := by
    by_cases hb : (s.bg_ctrl % 256) &&& 0x80 ≠ 0
    · rw [if_pos ((bit7_and _ hctrl).mp hb), if_pos hb]
    · rw [if_neg (fun ht => hb ((bit7_and _ hctrl).mpr ht)), if_neg hb]
  simp only [drawSprite, spec_drawSprite, hshift]
  by_cases h88 : ((s.spriteram (o + 3) % 256) <<< 8 ||| (s.spriteram (o + 2) % 256)) &&& 0x88 = 0x88
  · simp only [h88, eq_self_iff_true, if_true]
    exact walk_eq _ _ _ _ _ _ _ _ (by norm_num) _
  · by_cases h08 : ((s.spriteram (o + 3) % 256) <<< 8 ||| (s.spriteram (o + 2) % 256)) &&& 0x88 = 0x08
    · simp only [h88, h08, eq_self_iff_true, if_true, if_false, if_neg h88]
      exact walk_eq _ _ _ _ _ _ _ _ (by norm_num) _
    · simp only [if_neg h88, if_neg h08]
      exact walk_eq _ _ _ _ _ _ _ _ (by norm_num) _

/-- C4: Sky Fox sprite flip-screen. The body of `draw_sprites` for any entry
equals the plain tile walk driven by the decoded parameters, where the
parameters are the raw decode when bit 0 of `bg_ctrl` is clear, and the
transform `x := width - x - n*8`, `y := height - y - n*8` with both flip flags
negated when bit 0 is set. -/
theorem C4_flip_screen (s : SkyfoxSnap) (cl : Clip) (fb : Fb) (o : Nat) :
    drawSprite s cl fb o = spriteBlit s.gfx cl fb
      (if (s.bg_ctrl % 256) &&& 1 ≠ 0 then flipXform s.width s.height (rawDecode s o)
       else rawDecode s o) := by
  by_cases hfs : (s.bg_ctrl % 256) &&& 1 ≠ 0
  · rw [if_pos hfs]
    simp only [drawSprite, spriteBlit, rawDecode, flipXform, if_pos hfs]
  · rw [if_neg hfs]
    simp only [drawSprite, spriteBlit, rawDecode, if_neg hfs]

/-- C9: the star-field output depends only on `bg_ctrl`, the star ROM, the odd
`bgram` bytes in [0xe1, 0xff] and bit 7 of the even `bgram` bytes in
[0xe0, 0xfe]; two snapshots agreeing there render identical star layers over
any framebuffer, whatever the remaining `bgram` bits hold. -/
theorem C9_star_noninterference (s1 s2 : SkyfoxSnap) (fb : Fb)
    (hc : s1.bg_ctrl = s2.bg_ctrl)
    (hr : ∀ j, s1.bg_rom j = s2.bg_rom j)
    (ho : ∀ j, 0xe1 ≤ j → j ≤ 0xff → j % 2 = 1 → s1.bgram j = s2.bgram j)
    (he : ∀ j, 0xe0 ≤ j → j ≤ 0xfe → j % 2 = 0 →
      Nat.testBit (s1.bgram j % 256) 7 = Nat.testBit (s2.bgram j % 256) 7) :
    draw_background s1 fb = draw_background s2 fb := by
  unfold draw_background condWriteFold
  apply List.foldl_ext
  intro fb2 i hi
  have hio : i &&& 0xf ≤ 15 := Nat.and_le_right
  have hoffs : bgOffs s1 i = bgOffs s2 i := by rw [bgOffs, bgOffs, hc]
  have hpen : bgPen s1 i = bgPen s2 i := by rw [bgPen, bgPen, hoffs, hr]
  have hpos : bgPos s1 i = bgPos s2 i := by
    rw [bgPos, bgPos, ho (0xe0 + (i &&& 0xf) * 2 + 1) (by omega) (by omega) (by omega)]
    have hbit := he (0xe0 + (i &&& 0xf) * 2) (by omega) (by omega) (by omega)
    have hiff : ((s1.bgram (0xe0 + (i &&& 0xf) * 2) % 256) &&& 0x80 ≠ 0)
        ↔ ((s2.bgram (0xe0 + (i &&& 0xf) * 2) % 256) &&& 0x80 ≠ 0) := by
      rw [bit7_and _ (byteMod_lt _), bit7_and _ (byteMod_lt _), hbit]
    congr 1
    exact if_congr hiff rfl rfl
  have hx : bgX s1 i = bgX s2 i := by rw [bgX, bgX, hoffs, hpos, hr]
  have hcond : bgCond s1 i = bgCond s2 i := by rw [bgCond, bgCond, hc, hpen]
  have hy : bgY s1 i = bgY s2 i := rfl
  simp only [hcond, hx, hy, hpen]

/-- C9 witness: the scenario-A snapshot and a snapshot whose even `bgram`
bytes hold 0x7f (every non-read bit flipped) render the same star layer. -/
theorem C9_witness : draw_background sA fbInit = draw_background sA9 fbInit :=
  C9_star_noninterference sA sA9 fbInit rfl (fun j => rfl)
    (fun j h1 h2 h3 => by
      simp only [sA, sA9]
      rw [if_neg (by omega)])
    (fun j h1 h2 h3 => by
      simp only [sA, sA9]
      rw [if_pos h3]
      decide)

/-! ### Scenario B helpers: the single 32x32 sprite as a blit list -/

/-- Sequential composition of framebuffer transformers. -/
def compList (L : List (Fb → Fb)) (fb : Fb) : Fb := L.foldl (fun fb g => g fb) fb

theorem compList_presAt {L : List (Fb → Fb)} {Y X : Int}
    (h : ∀ g ∈ L, ∀ fb : Fb, g fb Y X = fb Y X) :
    ∀ fb : Fb, compList L fb Y X = fb Y X := by
  induction L with
  | nil => intro fb; rfl
  | cons g t ih =>
    intro fb
    show compList t (g fb) Y X = fb Y X
    rw [ih (fun g2 hg2 fb2 => h g2 (by simp [hg2]) fb2), h g (by simp)]

theorem compList_presOrConstAt {L : List (Fb → Fb)} {Y X : Int} {v : Nat}
    (h : ∀ g ∈ L, (∀ fb : Fb, g fb Y X = fb Y X) ∨ (∀ fb : Fb, g fb Y X = v)) :
    ∀ fb : Fb, compList L fb Y X = fb Y X ∨ compList L fb Y X = v := by
  induction L with
  | nil => intro fb; exact Or.inl rfl
  | cons g t ih =>
    intro fb
    have ht : ∀ g2 ∈ t, (∀ fb : Fb, g2 fb Y X = fb Y X) ∨ (∀ fb : Fb, g2 fb Y X = v) :=
      fun g2 hg2 => h g2 (by simp [hg2])
    show compList t (g fb) Y X = fb Y X ∨ compList t (g fb) Y X = v
    rcases ih ht (g fb) with h1 | h1
    · rw [h1]
      rcases h g (by simp) with h2 | h2
      · exact Or.inl (h2 fb)
      · exact Or.inr (h2 fb)
    · exact Or.inr h1

theorem compList_setsAt {L : List (Fb → Fb)} {Y X : Int} {v : Nat}
    (h : ∀ g ∈ L, (∀ fb : Fb, g fb Y X = fb Y X) ∨ (∀ fb : Fb, g fb Y X = v))
    (hex : ∃ g ∈ L, ∀ fb : Fb, g fb Y X = v) :
    ∀ fb : Fb, compList L fb Y X = v := by
  induction L with
  | nil => exact absurd hex (by simp)
  | cons g t ih =>
    intro fb
    have ht : ∀ g2 ∈ t, (∀ fb : Fb, g2 fb Y X = fb Y X) ∨ (∀ fb : Fb, g2 fb Y X = v) :=
      fun g2 hg2 => h g2 (by simp [hg2])
    show compList t (g fb) Y X = v
    by_cases hext : ∃ g2 ∈ t, ∀ fb : Fb, g2 fb Y X = v
    · exact ih ht hext (g fb)
    · rcases hex with ⟨g2, hg2, hset⟩
      rcases List.mem_cons.mp hg2 with rfl | hgt
      · rcases compList_presOrConstAt ht (g2 fb) with h1 | h1
        · rw [h1, hset fb]
        · exact h1
      · exact absurd ⟨g2, hgt, hset⟩ hext

/-- One double blit (main position and vertical wrap clone) of scenario B. -/
def blitB (cl : Clip) (code : Nat) (sx sy : Int) : Fb → Fb := fun fb =>
  transpen gfxB cl code false false sx (sy - 256) 0xff
    (transpen gfxB cl code false false sx sy 0xff fb)

/-- The 16 tile blits of the scenario-B sprite, in walk order. -/
def blitListB (cl : Clip) : List (Fb → Fb) :=
  [blitB cl 0 128 16, blitB cl 1 136 16, blitB cl 2 144 16, blitB cl 3 152 16,
   blitB cl 4 128 24, blitB cl 5 136 24, blitB cl 6 144 24, blitB cl 7 152 24,
   blitB cl 8 128 32, blitB cl 9 136 32, blitB cl 10 144 32, blitB cl 11 152 32,
   blitB cl 12 128 40, blitB cl 13 136 40, blitB cl 14 144 40, blitB cl 15 152 40]

/-- Every pixel of scenario-B tiles 0..15 decodes to palette index 1. -/
theorem gfxB_pen (code : Nat) (hc : code < 16) :
    ∀ k : Nat, k < 64 → tpPen gfxB code false false k = 1 := by
  intro k hk
  simp [tpPen, gfxB, hc]

/-- The scenario-B sprite entry decodes to a plain 4x4 unflipped walk at
(128, 16) with base code 0. -/
theorem drawSpriteB_unfold (cl : Clip) (fb : Fb) :
    drawSprite sB cl fb 0 =
      ((List.range 4).foldl (rowStep gfxB cl false false 128 16 (List.range 4) 4) (fb, 0)).1 := rfl

theorem tileStepB_eq (cl : Clip) (fb : Fb) (code : Nat) (dx dy : Nat) :
    tileStep gfxB cl false false 128 16 dy (fb, code) dx
      = (blitB cl code (((dx : Nat) : Int) * 8 + 128) (((dy : Nat) : Int) * 8 + 16) fb,
         code + 1) := rfl

theorem rowStepB_eq (cl : Clip) (fb : Fb) (code : Nat) (dy : Nat) :
    rowStep gfxB cl false false 128 16 [0, 1, 2, 3] 4 (fb, code) dy
      = (blitB cl (code + 3) 152 (((dy : Nat) : Int) * 8 + 16)
          (blitB cl (code + 2) 144 (((dy : Nat) : Int) * 8 + 16)
            (blitB cl (code + 1) 136 (((dy : Nat) : Int) * 8 + 16)
              (blitB cl code 128 (((dy : Nat) : Int) * 8 + 16) fb))), code + 4) := by
  unfold rowStep
  rw [List.foldl_cons, tileStepB_eq, List.foldl_cons, tileStepB_eq, List.foldl_cons,
    tileStepB_eq, List.foldl_cons, tileStepB_eq, List.foldl_nil]
  norm_num

/-- The scenario-B sprite entry performs exactly the 16 double blits of
`blitListB`, in walk order. -/
theorem drawSpriteB_eq (cl : Clip) (fb : Fb) :
    drawSprite sB cl fb 0 = compList (blitListB cl) fb := by
  rw [drawSpriteB_unfold]
  rw [show List.range 4 = [0, 1, 2, 3] from by decide]
  rw [List.foldl_cons, rowStepB_eq, List.foldl_cons, rowStepB_eq, List.foldl_cons,
    rowStepB_eq, List.foldl_cons, rowStepB_eq, List.foldl_nil]
  simp only [compList, blitListB, List.foldl_cons, List.foldl_nil]
  norm_num

theorem blitB_pres {cl : Clip} {code : Nat} {sx sy Y X : Int}
    (h : ¬(sy ≤ Y ∧ Y < sy + 8 ∧ sx ≤ X ∧ X < sx + 8)) (h0 : 0 ≤ Y) (hsy : sy ≤ 40) :
    ∀ fb : Fb, blitB cl code sx sy fb Y X = fb Y X := by
  intro fb
  have hclone : ¬(sy - 256 ≤ Y ∧ Y < sy - 256 + 8 ∧ sx ≤ X ∧ X < sx + 8) := by omega
  show transpen gfxB cl code false false sx (sy - 256) 0xff
      (transpen gfxB cl code false false sx sy 0xff fb) Y X = fb Y X
  rw [transpen_presPt hclone, transpen_presPt h]

theorem blitB_sets {cl : Clip} {code : Nat} {sx sy Y X : Int} (hcode : code < 16)
    (hy1 : sy ≤ Y) (hy2 : Y < sy + 8) (hx1 : sx ≤ X) (hx2 : X < sx + 8)
    (hclip : inClipB cl X Y = true) :
    ∀ fb : Fb, blitB cl code sx sy fb Y X = 1 := by
  intro fb
  have hclone : ¬(sy - 256 ≤ Y ∧ Y < sy - 256 + 8 ∧ sx ≤ X ∧ X < sx + 8) := by omega
  show transpen gfxB cl code false false sx (sy - 256) 0xff
      (transpen gfxB cl code false false sx sy 0xff fb) Y X = 1
  rw [transpen_presPt hclone]
  exact transpen_setsConst (gfxB_pen code hcode) (by norm_num) hy1 hy2 hx1 hx2 hclip fb

theorem blitB_dichotomy {cl : Clip} {code : Nat} {sx sy Y X : Int} (hcode : code < 16)
    (h0 : 0 ≤ Y) (hsy : sy ≤ 40) :
    (∀ fb : Fb, blitB cl code sx sy fb Y X = fb Y X) ∨
    (∀ fb : Fb, blitB cl code sx sy fb Y X = 1) := by
  by_cases hfoot : sy ≤ Y ∧ Y < sy + 8 ∧ sx ≤ X ∧ X < sx + 8
  · cases hcb : inClipB cl X Y
    · refine Or.inl fun fb => ?_
      have hclone : ¬(sy - 256 ≤ Y ∧ Y < sy - 256 + 8 ∧ sx ≤ X ∧ X < sx + 8) := by omega
      show transpen gfxB cl code false false sx (sy - 256) 0xff
          (transpen gfxB cl code false false sx sy 0xff fb) Y X = fb Y X
      rw [transpen_outside hcb, transpen_outside hcb]
    · exact Or.inr (blitB_sets hcode hfoot.1 hfoot.2.1 hfoot.2.2.1 hfoot.2.2.2 hcb)
  · exact Or.inl (blitB_pres hfoot h0 hsy)

theorem blitB_mem (cl : Clip) (r c : Nat) (hr : r < 4) (hc : c < 4) :
    blitB cl (4 * r + c) (128 + 8 * (c : Int)) (16 + 8 * (r : Int)) ∈ blitListB cl := by
  interval_cases r <;> interval_cases c <;> norm_num [blitListB]

/-- The scenario-B sprite paints palette index 1 over its whole 32x32 block. -/
theorem spriteB_block (Y X : Int) (hy1 : 16 ≤ Y) (hy2 : Y < 48)
    (hx1 : 128 ≤ X) (hx2 : X < 160) (fb : Fb) :
    drawSprite sB clipFull fb 0 Y X = 1 := by
  rw [drawSpriteB_eq]
  obtain ⟨r, hr, hry1, hry2⟩ : ∃ r : Nat, r < 4 ∧ 16 + 8 * (r : Int) ≤ Y ∧ Y < 24 + 8 * (r : Int) :=
    ⟨(Y.toNat - 16) / 8, by omega, by omega, by omega⟩
  obtain ⟨c, hc, hcx1, hcx2⟩ : ∃ c : Nat, c < 4 ∧ 128 + 8 * (c : Int) ≤ X ∧ X < 136 + 8 * (c : Int) :=
    ⟨(X.toNat - 128) / 8, by omega, by omega, by omega⟩
  apply compList_setsAt
  · intro g hg
    simp only [blitListB, List.mem_cons, List.not_mem_nil, or_false] at hg
    rcases hg with rfl|rfl|rfl|rfl|rfl|rfl|rfl|rfl|rfl|rfl|rfl|rfl|rfl|rfl|rfl|rfl <;>
      exact blitB_dichotomy (by norm_num) (by omega) (by norm_num)
  · exact ⟨blitB clipFull (4 * r + c) (128 + 8 * (c : Int)) (16 + 8 * (r : Int)),
      blitB_mem clipFull r c hr hc,
      blitB_sets (by omega) hry1 (by omega) hcx1 (by omega)
        (inClipFull_true (by omega) (by omega) (by omega) (by omega))⟩

/-- In scenario B every star carries pen 0 and lands in column 0x5b. -/
theorem bgX_sB (i : Nat) : bgX sB i = 91 := by
  simp [bgX, bgPos, bgOffs, sB]

/-- The full-screen clip excludes every negative row. -/
theorem inClipFull_false_neg {X Y : Int} (hy : Y < 0) : inClipB clipFull X Y = false := by
  cases hcb : inClipB clipFull X Y
  · rfl
  · exfalso
    rw [inClipB] at hcb
    simp only [clipFull, Bool.and_eq_true, decide_eq_true_eq] at hcb
    omega

/-- For scenario B the render pipeline reduces to the single sprite entry over
the star layer: the 4-byte table holds exactly one entry. -/
theorem screen_update_sB_eq (fb : Fb) :
    screen_update_skyfox sB clipFull fb
      = drawSprite sB clipFull (draw_background sB (fill 0xff clipFull fb)) 0 := by
  unfold screen_update_skyfox draw_sprites
  rw [show List.range ((sB.sprLen + 3) / 4) = [0] from by decide]
  rw [List.foldl_cons, List.foldl_nil]

/-- C7 counterexample: in scenario B the pixel at row 0x10, column 256 holds
the clear colour 0xff, not the sprite colour 0x01 — the sprite's x coordinate
is spriteram[1] * 2 = 0x40 * 2 = 128, not 256. -/
theorem C7_counterexample : screen_update_skyfox sB clipFull fbInit 0x10 256 ≠ 0x01 := by
  have hval : screen_update_skyfox sB clipFull fbInit 0x10 256 = 0xff := by
    rw [screen_update_sB_eq]
    rw [drawSpriteB_eq]
    rw [compList_presAt ?hpres]
    case hpres =>
      intro g hg
      simp only [blitListB, List.mem_cons, List.not_mem_nil, or_false] at hg
      rcases hg with rfl|rfl|rfl|rfl|rfl|rfl|rfl|rfl|rfl|rfl|rfl|rfl|rfl|rfl|rfl|rfl <;>
        exact blitB_pres (by norm_num) (by norm_num) (by norm_num)
    unfold draw_background
    rw [condWriteFold_pres (fun i hi hc hp => by
      have h2 := hp.2
      rw [bgX_sB] at h2
      norm_num at h2)]
    have hin : inClipB clipFull 256 16 = true := by decide
    simp [fill, hin]
  rw [hval]
  decide

/-- C7 (amended): rendering scenario B paints a 32x32 block of palette index
0x01 at x = 0x40 * 2 = 128, y = 0x10; the wrap clone drawn at y - 256 lies
entirely above the visible area, so the clip leaves every negative row
untouched. -/
theorem C7_block :
    (∀ Y X : Int, 16 ≤ Y → Y < 48 → 128 ≤ X → X < 160 →
      screen_update_skyfox sB clipFull fbInit Y X = 0x01)
  ∧ (∀ Y X : Int, Y < 0 → screen_update_skyfox sB clipFull fbInit Y X = fbInit Y X) := by
  constructor
  · intro Y X hy1 hy2 hx1 hx2
    rw [screen_update_sB_eq]
    exact spriteB_block Y X hy1 hy2 hx1 hx2 _
  · intro Y X hy
    have hclip : inClipB clipFull X Y = false := inClipFull_false_neg hy
    rw [screen_update_sB_eq, drawSprite_outside hclip]
    unfold draw_background
    rw [condWriteFold_pres (fun i hi hc hp => by
      have h1 := hp.1
      omega)]
    simp [fill, hclip]

/-- C7 witness: the amended statement at a block pixel and at an above-screen
pixel. -/
theorem C7_witness :
    screen_update_skyfox sB clipFull fbInit 20 140 = 0x01 ∧
    screen_update_skyfox sB clipFull fbInit (-5) 300 = fbInit (-5) 300 :=
  ⟨C7_block.1 20 140 (by norm_num) (by norm_num) (by norm_num) (by norm_num),
   C7_block.2 (-5) 300 (by norm_num)⟩

/-- C10: the sprite renderer walks the whole table unconditionally, entry by
entry in increasing offset order; an all-zero entry still decodes to an 8x8
sprite of tile 0 at (0, 0) (blitted there and at the vertical wrap (0, -256));
and wherever an entry writes a pixel at all, the value it leaves is
independent of what earlier entries drew, so on overlap the larger offset
wins. -/
theorem C10_unconditional_override :
    (∀ (s : SkyfoxSnap) (cl : Clip) (fb : Fb),
      draw_sprites s cl fb
        = (List.range ((s.sprLen + 3) / 4)).foldl (fun fb k => drawSprite s cl fb (4 * k)) fb)
  ∧ (∀ (s : SkyfoxSnap) (cl : Clip) (fb : Fb) (o : Nat),
      (∀ j, j < 4 → s.spriteram (o + j) % 256 = 0) → (s.bg_ctrl % 256) &&& 1 = 0 →
      drawSprite s cl fb o
        = transpen s.gfx cl 0 false false 0 (-256) 0xff
            (transpen s.gfx cl 0 false false 0 0 0xff fb))
  ∧ (∀ (s : SkyfoxSnap) (cl : Clip) (o : Nat) (Y X : Int),
      (∃ fb0 : Fb, drawSprite s cl fb0 o Y X ≠ fb0 Y X) →
      ∀ fb1 fb2 : Fb, drawSprite s cl fb1 o Y X = drawSprite s cl fb2 o Y X) := by
  refine ⟨fun s cl fb => rfl, ?_, ?_⟩
  · intro s cl fb o hz hflip
    have h0 : s.spriteram o % 256 = 0 := by simpa using hz 0 (by norm_num)
    have h1 : s.spriteram (o + 1) % 256 = 0 := hz 1 (by norm_num)
    have h2 : s.spriteram (o + 2) % 256 = 0 := hz 2 (by norm_num)
    have h3 : s.spriteram (o + 3) % 256 = 0 := hz 3 (by norm_num)
    simp only [drawSprite, h0, h1, h2, h3, hflip]
    norm_num [show List.range 1 = [0] from by decide, rowStep, tileStep]
  · intro s cl o Y X hch fb1 fb2
    exact (detAt_drawSprite s cl o Y X).2 hch fb1 fb2

/-- C10 witness: the all-zero-entry clause applied to the first entry of the
scenario-A sprite table. -/
theorem C10_witness :
    drawSprite sA clipFull fbInit 0
      = transpen sA.gfx clipFull 0 false false 0 (-256) 0xff
          (transpen sA.gfx clipFull 0 false false 0 0 0xff fbInit) :=
  C10_unconditional_override.2.1 sA clipFull fbInit 0 (fun j hj => rfl) (by decide)

end Store1
